import Mathlib

/-!
Verification development for the WebDavClient repository.

Shallow embeddings of:
* the embedded local range server (`LocalFileServer.handleClient` in the
  Android plugin source): PUT body loop and GET range branch;
* the server raw endpoint's local branch (express `res.sendFile` range
  semantics, modelled from the spec);
* the sandbox path resolution `resolveSafePath` (src/server/index.js),
  over Node's posix path semantics (the server deployment platform);
* the drive registry endpoints (current server and the legacy variant
  kept under src/unnamed/part_000);
* the native WebDAV client byte pipeline (base64 body encoding through
  the Android `request` plugin method) for both generations of
  `putFileContents` found in src/client/src/api/index.js;
* the cross-drive transfer strategies (server `POST /api/transfer` and
  `NativeAPI.crossDriveTransfer`);
* the cooperative cancellation of the native streaming `download` /
  `upload` loops and the JS-side cleanup branch;
* `mkdir` on both backends (fs.ensureDir / native `createDirectory`
  versus MKCOL against a WebDAV server).
-/

/-! ## Local range server: PUT branch

From `LocalFileServer.handleClient` (Java): the PUT branch reads the body
in chunks of at most 65536 bytes, bounded by the remaining Content-Length
when one was sent; an exception while reading or writing leaves
`success = false`, in which case the partially written file is deleted
and 500 is returned; otherwise 201 Created is returned.  A read result is
either a chunk of bytes, or an I/O failure (exception). -/

/-- One result of `in.read` on the request body: a delivered chunk, or an
I/O exception. -/
inductive ReadEv where
  | chunk (bs : List Nat)
  | fail
  deriving DecidableEq, Repr

/-- The PUT body loop of `LocalFileServer.handleClient`.  `left` is the
remaining Content-Length (`none` models `contentLength == -1`), `acc` the
bytes written to the destination file so far.  Returns the file left on
disk afterwards (`none` = deleted/absent) and the HTTP status written. -/
def putGo (left : Option Nat) (acc : List Nat) (evs : List ReadEv) : Option (List Nat) × Nat :=
  if left = some 0 then
    -- bytesLeft exhausted: loop ends, success = true, 201 Created
    (some acc, 201)
  else
    match evs with
    | [] => (some acc, 201)            -- read returned -1: break, success
    | ReadEv.fail :: _ => (none, 500)  -- exception: delete partial file, 500
    | ReadEv.chunk bs :: rest =>
        let maxRead := match left with
          | none => 65536
          | some n => min 65536 n
        let taken := bs.take maxRead
        putGo (left.map (fun n => n - taken.length)) (acc ++ taken) rest
termination_by evs.length

/-- `handlePut contentLength events`: the whole PUT branch, starting from
the freshly created (truncated) destination file. -/
def handlePut (contentLength : Option Nat) (events : List ReadEv) : Option (List Nat) × Nat :=
  putGo contentLength [] events

/-! ## Local range server: GET branch

From `LocalFileServer.handleClient` (Java): `rangeStart` defaults to 0 and
`rangeEnd` to -1 (then replaced by `fileLength - 1`); the reply is always
`206 Partial Content` with `Content-Length: finalLength` and
`Content-Range: bytes start-end/total`, the body being the bytes actually
readable in that window. -/

structure GetResp where
  status : Nat
  contentLength : Int
  contentRange : String
  body : List Nat
  deriving DecidableEq, Repr

/-- The GET branch of `LocalFileServer.handleClient`.  `file` is the
resolved file's contents (`none` = missing), `range` the parsed
`Range: bytes=start-end` header (`none` = header absent; the second
component is `none` when the end was omitted). -/
def handleGet (file : Option (List Nat)) (range : Option (Nat × Option Nat)) : GetResp :=
  match file with
  | none => ⟨404, 0, "", []⟩
  | some bs =>
    let rangeStart : Nat := (range.map Prod.fst).getD 0
    let fileLength : Nat := bs.length
    let rangeEnd : Int :=
      match range with
      | some (_, some e) => (e : Int)
      | _ => (fileLength : Int) - 1
    let finalLength : Int := rangeEnd - (rangeStart : Int) + 1
    { status := 206
      contentLength := finalLength
      contentRange := "bytes " ++ toString rangeStart ++ "-" ++ toString rangeEnd
          ++ "/" ++ toString fileLength
      body := (bs.drop rangeStart).take finalLength.toNat }

/-! ## Raw endpoint, local branch (spec-modelled)

`GET /api/raw` serves a local file with `res.sendFile`; the express `send`
library implementing it is not part of this repository. -/

structure RawResp where
  status : Nat
  acceptRanges : Bool
  body : List Nat
  deriving DecidableEq, Repr

/-- Modelled from the spec: the express `res.sendFile` range semantics used
by the local branch of `GET /api/raw` (the `send` library is not in the
repository).  Per the spec's wire contract: no `Range` header yields 200
with the full body and `Accept-Ranges: bytes`; a satisfiable range yields
206 with the byte window; a range beyond the file length yields 416. -/
def rawSendFile (file : List Nat) (range : Option (Nat × Option Nat)) : RawResp :=
  match range with
  | none => ⟨200, true, file⟩
  | some (s, e) =>
    if s ≥ file.length then ⟨416, true, []⟩
    else
      let last := min ((e.getD (file.length - 1))) (file.length - 1)
      ⟨206, true, (file.drop s).take (last + 1 - s)⟩

/-! ## Theorems about the local range server -/

/-- Helper: invariants of the PUT body loop, for any starting state. -/
theorem putGo_spec (evs : List ReadEv) : ∀ left acc,
    ((putGo left acc evs).2 = 201 ∨ (putGo left acc evs).2 = 500)
    ∧ ((putGo left acc evs).1.isSome ↔ (putGo left acc evs).2 = 201)
    ∧ ((∀ e ∈ evs, e ≠ ReadEv.fail) → (putGo left acc evs).2 = 201) := by
  induction evs with
  | nil =>
    intro left acc
    unfold putGo
    split <;> simp
  | cons e rest ih =>
    intro left acc
    unfold putGo
    split
    · simp
    · cases e with
      | fail => simp
      | chunk bs =>
        simp only []
        refine ⟨(ih _ _).1, (ih _ _).2.1, fun h => (ih _ _).2.2 ?_⟩
        exact fun x hx => h x (List.mem_cons_of_mem _ hx)

/-- C10: on the embedded local server's PUT branch, a read/write failure
before completion deletes the partially written file and returns 500; a
file is left on disk exactly when the response is 201 Created, and an
exception-free body always yields 201. -/
theorem put_failure_deletes_dest_file (cl : Option Nat) (evs : List ReadEv) :
    ((handlePut cl evs).2 = 201 ∨ (handlePut cl evs).2 = 500)
    ∧ ((handlePut cl evs).1.isSome ↔ (handlePut cl evs).2 = 201)
    ∧ ((handlePut cl evs).2 = 500 → (handlePut cl evs).1 = none)
    ∧ ((∀ e ∈ evs, e ≠ ReadEv.fail) → (handlePut cl evs).2 = 201) := by
  unfold handlePut
  have h := putGo_spec evs cl []
  refine ⟨h.1, h.2.1, ?_, h.2.2⟩
  intro h500
  have h2 : ¬ (putGo cl [] evs).1.isSome = true := by
    rw [h.2.1, h500]
    decide
  exact Option.not_isSome_iff_eq_none.mp h2

/-- Witness for `put_failure_deletes_dest_file` at a concrete request. -/
theorem put_failure_deletes_dest_file_witness :
    (handlePut (some 3) [ReadEv.chunk [1, 2, 3]]).2 = 201 :=
  (put_failure_deletes_dest_file (some 3) [ReadEv.chunk [1, 2, 3]]).2.2.2 (by decide)

/-- C6: a `Range: bytes=100-199` request on a 1000-byte resource gets
status 206, Content-Length 100, `Content-Range: bytes 100-199/1000`, and
exactly the 100 requested bytes. -/
theorem range_request_100_199 (bs : List Nat) (h : bs.length = 1000) :
    (handleGet (some bs) (some (100, some 199))).status = 206
    ∧ (handleGet (some bs) (some (100, some 199))).contentLength = 100
    ∧ (handleGet (some bs) (some (100, some 199))).contentRange = "bytes 100-199/1000"
    ∧ (handleGet (some bs) (some (100, some 199))).body = (bs.drop 100).take 100
    ∧ ((bs.drop 100).take 100).length = 100 := by
  refine ⟨by simp [handleGet], by simp [handleGet], ?_, ?_, ?_⟩
  · simp [handleGet, h]
    decide
  · simp [handleGet]
  · simp [List.length_take, List.length_drop, h]

/-- Witness for `range_request_100_199` at a concrete 1000-byte file. -/
theorem range_request_100_199_witness :
    (handleGet (some (List.replicate 1000 7)) (some (100, some 199))).status = 206 :=
  (range_request_100_199 (List.replicate 1000 7) (by rw [List.length_replicate])).1

/-- C7 counterexample: on the embedded local range server (cited for this
claim), a GET that omits the `Range` header is answered 206 (with the full
byte window), not 200, and a range starting beyond the file length is also
answered 206, never 416. -/
theorem raw_no_range_counterexample :
    (handleGet (some [1, 2, 3]) none).status = 206
    ∧ (handleGet (some [1, 2, 3]) none).body = [1, 2, 3]
    ∧ 206 ≠ 200
    ∧ (handleGet (some [1, 2, 3]) (some (10, none))).status = 206
    ∧ 206 ≠ 416 := by
  refine ⟨by decide, by decide, by decide, by decide, by decide⟩

/-- C7 amended: on the server raw endpoint's local branch (express
`res.sendFile` semantics, modelled from the spec), omitting the `Range`
header yields 200 with the full body and `Accept-Ranges: bytes`, and a
range beyond the file length yields 416; the embedded local range server,
by contrast, always replies 206 (full byte window when the header is
omitted) and never 416. -/
theorem raw_range_contract (file : List Nat) (s : Nat) (e : Option Nat)
    (hs : s ≥ file.length) :
    (rawSendFile file none).status = 200
    ∧ (rawSendFile file none).body = file
    ∧ (rawSendFile file none).acceptRanges = true
    ∧ (rawSendFile file (some (s, e))).status = 416
    ∧ (handleGet (some file) none).status = 206
    ∧ (handleGet (some file) none).body = file := by
  refine ⟨rfl, rfl, rfl, ?_, by simp [handleGet], ?_⟩
  · simp [rawSendFile, hs]
  · simp [handleGet]

/-- Witness for `raw_range_contract` at a concrete file and range. -/
theorem raw_range_contract_witness :
    (rawSendFile [5] (some (5, none))).status = 416 :=
  (raw_range_contract [5] 5 none (by decide)).2.2.2.1

/-! ## Sandbox path resolution (`resolveSafePath`, src/server/index.js)

The server computes
`path.normalize(userPath).replace(/^(\.\.[/\\])+/, '').replace(/^[/\\]+/, '')`,
resolves it against `STORAGE_DIR` and rejects when the result does not
start with `STORAGE_DIR`.  Node's posix path semantics are embedded below
(the server's deployment platform; on posix only `/` separates). -/

/-- Splitting a character list on `/`, matching `String.split` on the
separator (JS `p.split('/')` semantics as used inside Node's path code). -/
def splitSlash : List Char → List (List Char)
  | [] => [[]]
  | '/' :: rest => [] :: splitSlash rest
  | c :: rest =>
      match splitSlash rest with
      | g :: gs => (c :: g) :: gs
      | [] => [[c]]

/-- One step of Node's `normalizeString` over a path segment.  `acc` holds
the output segments in reverse.  `allowAbove` is true for relative paths
(leading `..` segments are kept), false for absolute ones (dropped). -/
def normStep (allowAbove : Bool) (acc : List (List Char)) (seg : List Char) : List (List Char) :=
  if seg = [] ∨ seg = ['.'] then acc
  else if seg = ['.', '.'] then
    match acc with
    | last :: rest =>
        if last ≠ ['.', '.'] then rest
        else if allowAbove then ['.', '.'] :: acc else acc
    | [] => if allowAbove then [['.', '.']] else []
  else seg :: acc

/-- Node `normalizeString`: fold the segments and restore order. -/
def normSegs (allowAbove : Bool) (segs : List (List Char)) : List (List Char) :=
  (segs.foldl (normStep allowAbove) []).reverse

/-- Node `path.posix.normalize`, over the characters of the path. -/
def posixNormalizeChars (cs : List Char) : List Char :=
  if cs = [] then ['.']
  else
    let isAbs := cs.head? = some '/'
    let trail := cs.getLast? = some '/'
    let core := List.intercalate ['/'] (normSegs (!isAbs) (splitSlash cs))
    if core = [] then
      if isAbs then ['/'] else if trail then ['.', '/'] else ['.']
    else
      let core2 := if trail then core ++ ['/'] else core
      if isAbs then '/' :: core2 else core2

/-- The regex `^(\.\.[/\\])+`: repeatedly strip a leading `../` or `..\`. -/
def stripDotDotLead : List Char → List Char
  | '.' :: '.' :: '/' :: rest => stripDotDotLead rest
  | '.' :: '.' :: '\\' :: rest => stripDotDotLead rest
  | cs => cs

/-- The regex `^[/\\]+`: strip leading slashes and backslashes. -/
def stripSlashLead : List Char → List Char
  | '/' :: rest => stripSlashLead rest
  | '\\' :: rest => stripSlashLead rest
  | cs => cs

/-- Node `path.posix.resolve(root, s)` for an absolute `root` and a
relative `s` (the only way it is called here: `s` has had its leading
slashes stripped). -/
def posixResolveChars (root s : List Char) : List Char :=
  let comb := if s = [] then root else root ++ '/' :: s
  let core := List.intercalate ['/'] (normSegs false (splitSlash comb))
  if core = [] then ['/'] else '/' :: core

/-- `resolveSafePath` from src/server/index.js: normalize, strip leading
`..` segments and leading slashes, resolve against the sandbox root, and
reject unless the result starts with the root (JS `String.startsWith`,
i.e. character-prefix). -/
def resolveSafePath (root userPath : String) : Except String String :=
  let safeSuffix := stripSlashLead (stripDotDotLead (posixNormalizeChars userPath.data))
  let absolutePath := posixResolveChars root.data safeSuffix
  if root.data.isPrefixOf absolutePath then Except.ok (String.mk absolutePath)
  else Except.error "Access denied: Path traversal detected"

/-- C1 counterexample: the user path `a/../b` contains the `../` traversal
sequence (as an infix of its characters), yet `resolveSafePath` does not
fail with the access-denied error: normalization resolves the traversal
inside the sandbox and the call returns a path. -/
theorem resolveSafePath_dotdot_counterexample :
    resolveSafePath "/home/user" "a/../b" = Except.ok "/home/user/b"
    ∧ "a/../b".data = ['a', '/'] ++ ['.', '.', '/'] ++ ['b'] := by
  refine ⟨rfl, by decide⟩

/-- C1 amended: every path returned by `resolveSafePath` has the sandbox
root as a prefix (paths whose resolution escapes the root are rejected
with the access-denied error, e.g. `..`), but a path containing a `../`
sequence is not necessarily rejected: leading `..` segments are stripped
and inner ones normalized away, and resolution then succeeds. -/
theorem resolveSafePath_root_is_prefix (root p out : String)
    (h : resolveSafePath root p = Except.ok out) :
    root.data.isPrefixOf out.data = true := by
  simp only [resolveSafePath] at h
  split at h
  · rename_i hc
    injection h with h1
    rw [← h1]
    exact hc
  · exact absurd h (by simp)

/-- Witness for `resolveSafePath_root_is_prefix` at a concrete call. -/
theorem resolveSafePath_root_is_prefix_witness :
    ("/home/user".data.isPrefixOf ("/home/user/docs".data)) = true :=
  resolveSafePath_root_is_prefix "/home/user" "docs" "/home/user/docs" rfl

/-! ## Drive registry (`/api/drives` endpoints)

`src/server/index.js` (current) strips the password from every entry of
the drive-listing response, masks it in the POST debug log, and checks
`(url, username)` and `name` duplicates before persisting; the legacy
variant kept at src/unnamed/part_000 spreads the stored drive objects into
the response unchanged and logs the raw POST payload. -/

structure DriveConfig where
  id : String
  name : String
  ty : String
  url : String
  username : String
  password : Option String
  deriving DecidableEq, Repr

/-- A drive entry as returned by `GET /api/drives`: the stored config
(fields spread into the JSON object) plus the best-effort quota. -/
structure DriveView where
  cfg : DriveConfig
  quota : Option (Nat × Nat)
  deriving DecidableEq, Repr

/-- `GET /api/drives` in src/server/index.js: for each drive, build
`publicDrive = { ...drive }` with `delete publicDrive.password`, and attach
the quota probe result (`none` on probe timeout/failure). -/
def listDrives (drives : List DriveConfig) (quotaOf : DriveConfig → Option (Nat × Nat)) :
    List DriveView :=
  drives.map (fun d => ⟨{ d with password := none }, quotaOf d⟩)

/-- The error fallback of `GET /api/drives` in src/server/index.js: strip
passwords even when the quota pass failed. -/
def listDrivesFallback (drives : List DriveConfig) : List DriveConfig :=
  drives.map (fun d => { d with password := none })

/-- `GET /api/drives` in the legacy server variant
(src/unnamed/part_000): the response entry is `{ ...drive, quota }` — the
stored password field is spread into the response unchanged. -/
def legacyListDrives (drives : List DriveConfig) (quotaOf : DriveConfig → Option (Nat × Nat)) :
    List DriveView :=
  drives.map (fun d => ⟨d, quotaOf d⟩)

/-- The object logged by `POST /api/drives` in src/server/index.js:
`{ ...newDrive, password: '***' }`. -/
def logSafeDrive (d : DriveConfig) : DriveConfig :=
  { d with password := some "***" }

/-- Registry errors of `POST /api/drives` (409 responses). -/
inductive AddErr where
  | duplicateAccount
  | duplicateName
  deriving DecidableEq, Repr

/-- `POST /api/drives` in src/server/index.js: reject 409 when
`(url, username)` matches an existing entry, then 409 when `name`
matches; otherwise encrypt the password, assign a fresh id, append and
persist.  On a 409 the config file is not rewritten. -/
def addDrive (drives : List DriveConfig) (nd : DriveConfig)
    (freshId : String) (enc : String → String) : Except AddErr (List DriveConfig) :=
  if drives.any (fun d => d.url == nd.url && d.username == nd.username) then
    Except.error AddErr.duplicateAccount
  else if drives.any (fun d => d.name == nd.name) then
    Except.error AddErr.duplicateName
  else
    Except.ok (drives ++ [{ nd with password := nd.password.map enc, id := freshId }])

/-- The persisted registry after a `POST /api/drives` call: unchanged when
the add was rejected. -/
def registryAfterAdd (drives : List DriveConfig) (nd : DriveConfig)
    (freshId : String) (enc : String → String) : List DriveConfig :=
  match addDrive drives nd freshId enc with
  | Except.ok l => l
  | Except.error _ => drives

/-- `POST /api/drives` response in src/server/index.js: the stored entry
with `delete safeResponse.password`. -/
def addDriveResponse (stored : DriveConfig) : DriveConfig :=
  { stored with password := none }

/-- C4 counterexample: the legacy server variant (src/unnamed/part_000,
cited by the claim) returns the drive-listing response with the stored
secret still present: its entries are `{ ...drive, quota }` with no
password stripping (nor is any encryption applied at rest there). -/
theorem drive_secret_leak_counterexample :
    ((legacyListDrives
        [⟨"d1", "Cloud", "webdav", "https://dav.example", "alice", some "hunter2"⟩]
        (fun _ => none)).any
      (fun v => v.cfg.password == some "hunter2")) = true := by
  decide

/-- C4 amended: in the current server (src/server/index.js) the secret is
stripped from every config returned by the drive listing (both the quota
path and the error fallback) and from the add-drive response, and the
add-drive debug log masks the password as `***`; the legacy variant under
src/unnamed/part_000 instead returns and logs the stored secret verbatim. -/
theorem drive_secret_stripped (drives : List DriveConfig)
    (quotaOf : DriveConfig → Option (Nat × Nat)) (nd : DriveConfig) :
    (∀ v ∈ listDrives drives quotaOf, v.cfg.password = none)
    ∧ (∀ d ∈ listDrivesFallback drives, d.password = none)
    ∧ (addDriveResponse nd).password = none
    ∧ (logSafeDrive nd).password = some "***" := by
  refine ⟨?_, ?_, rfl, rfl⟩
  · intro v hv
    rw [listDrives, List.mem_map] at hv
    obtain ⟨d, _, rfl⟩ := hv
    rfl
  · intro d hd
    rw [listDrivesFallback, List.mem_map] at hd
    obtain ⟨d0, _, rfl⟩ := hd
    rfl

/-- Witness for `drive_secret_stripped` at a concrete registry. -/
theorem drive_secret_stripped_witness :
    (⟨⟨"d1", "Cloud", "webdav", "https://dav.example", "alice", none⟩, none⟩ :
      DriveView).cfg.password = none :=
  (drive_secret_stripped
      [⟨"d1", "Cloud", "webdav", "https://dav.example", "alice", some "pw"⟩]
      (fun _ => none)
      ⟨"d2", "Other", "webdav", "u", "bob", some "pw2"⟩).1
    ⟨⟨"d1", "Cloud", "webdav", "https://dav.example", "alice", none⟩, none⟩
    (by decide)

/-- C8: adding a drive whose `(url, username)` pair matches the (unique)
existing entry is rejected with the duplicate-account error and the
persisted registry is unchanged, still holding exactly one matching
entry; a config whose name matches an existing entry (without an account
match) is rejected with the duplicate-name error. -/
theorem duplicate_drive_rejected (drives : List DriveConfig) (nd : DriveConfig)
    (freshId : String) (enc : String → String) :
    (((drives.filter (fun d => d.url == nd.url && d.username == nd.username)).length = 1 →
      addDrive drives nd freshId enc = Except.error AddErr.duplicateAccount
      ∧ registryAfterAdd drives nd freshId enc = drives
      ∧ ((registryAfterAdd drives nd freshId enc).filter
          (fun d => d.url == nd.url && d.username == nd.username)).length = 1))
    ∧ ((drives.any (fun d => d.url == nd.url && d.username == nd.username)) = false →
       (drives.any (fun d => d.name == nd.name)) = true →
       addDrive drives nd freshId enc = Except.error AddErr.duplicateName) := by
  constructor
  · intro h1
    have hmem : ∃ d ∈ drives, (d.url == nd.url && d.username == nd.username) = true := by
      have hlen : 0 < (drives.filter
          (fun d => d.url == nd.url && d.username == nd.username)).length := by omega
      obtain ⟨d, hd⟩ := List.exists_mem_of_length_pos hlen
      exact ⟨d, (List.mem_filter.mp hd).1, (List.mem_filter.mp hd).2⟩
    have hany : (drives.any (fun d => d.url == nd.url && d.username == nd.username)) = true := by
      rw [List.any_eq_true]
      exact hmem
    have hadd : addDrive drives nd freshId enc = Except.error AddErr.duplicateAccount := by
      rw [addDrive, if_pos hany]
    have hreg : registryAfterAdd drives nd freshId enc = drives := by
      rw [registryAfterAdd, hadd]
    exact ⟨hadd, hreg, by rw [hreg]; exact h1⟩
  · intro h1 h2
    rw [addDrive, if_neg (by rw [h1]; exact Bool.false_ne_true), if_pos h2]

/-- Witness for `duplicate_drive_rejected` at a concrete registry. -/
theorem duplicate_drive_rejected_witness :
    addDrive
      [⟨"local", "Local Storage", "local", "", "", none⟩,
       ⟨"d1", "Cloud A", "webdav", "https://dav.example", "alice", some "enc1"⟩]
      ⟨"", "Cloud B", "webdav", "https://dav.example", "alice", some "pw"⟩
      "fresh-id" id = Except.error AddErr.duplicateAccount :=
  ((duplicate_drive_rejected
      [⟨"local", "Local Storage", "local", "", "", none⟩,
       ⟨"d1", "Cloud A", "webdav", "https://dav.example", "alice", some "enc1"⟩]
      ⟨"", "Cloud B", "webdav", "https://dav.example", "alice", some "pw"⟩
      "fresh-id" id).1 (by decide)).1

/-! ## Native WebDAV byte pipeline (api/index.js + WebDavPlugin.java)

The native client sends PUT bodies as base64 strings with
`bodyIsBase64: true`; the Android plugin decodes them
(`Base64.decode(body)`) into the raw request body, and returns binary GET
responses as `Base64.encodeToString(bytes)`.  Byte sequences are lists of
naturals < 256, strings lists of character codes. -/

/-- The standard base64 alphabet: value (0..63) to character code. -/
def b64CharOfVal (v : Nat) : Nat :=
  if v < 26 then 65 + v
  else if v < 52 then 97 + (v - 26)
  else if v < 62 then 48 + (v - 52)
  else if v = 62 then 43
  else 47

/-- The standard base64 alphabet: character code to value, `none` for a
character outside the alphabet (Android `Base64.decode` throws). -/
def b64ValOfChar (c : Nat) : Option Nat :=
  if 65 ≤ c ∧ c ≤ 90 then some (c - 65)
  else if 97 ≤ c ∧ c ≤ 122 then some (c - 97 + 26)
  else if 48 ≤ c ∧ c ≤ 57 then some (c - 48 + 52)
  else if c = 43 then some 62
  else if c = 47 then some 63
  else none

/-- Base64 encoding (`Buffer.toString('base64')` /
`Base64.encodeToString`), 3 input bytes per 4 output characters, padded
with `=` (code 61). -/
def b64Encode : List Nat → List Nat
  | [] => []
  | [a] => [b64CharOfVal (a / 4), b64CharOfVal (a % 4 * 16), 61, 61]
  | [a, b] => [b64CharOfVal (a / 4), b64CharOfVal (a % 4 * 16 + b / 16),
               b64CharOfVal (b % 16 * 4), 61]
  | a :: b :: c :: rest =>
      b64CharOfVal (a / 4) :: b64CharOfVal (a % 4 * 16 + b / 16)
        :: b64CharOfVal (b % 16 * 4 + c / 64) :: b64CharOfVal (c % 64)
        :: b64Encode rest

/-- Base64 decoding after padding removal: groups of four characters give
three bytes; a trailing group of two or three characters gives one or two
bytes (Android `Base64.decode` tolerates missing padding); a single
trailing character, or any character outside the alphabet, is an error. -/
def b64DecodeGroups : List Nat → Option (List Nat)
  | [] => some []
  | [_] => none
  | [c1, c2] =>
      match b64ValOfChar c1, b64ValOfChar c2 with
      | some s1, some s2 => some [s1 * 4 + s2 / 16]
      | _, _ => none
  | [c1, c2, c3] =>
      match b64ValOfChar c1, b64ValOfChar c2, b64ValOfChar c3 with
      | some s1, some s2, some s3 => some [s1 * 4 + s2 / 16, s2 % 16 * 16 + s3 / 4]
      | _, _, _ => none
  | c1 :: c2 :: c3 :: c4 :: rest =>
      match b64ValOfChar c1, b64ValOfChar c2, b64ValOfChar c3, b64ValOfChar c4 with
      | some s1, some s2, some s3, some s4 =>
          match b64DecodeGroups rest with
          | some bs => some ((s1 * 4 + s2 / 16) :: (s2 % 16 * 16 + s3 / 4)
                :: (s3 % 4 * 64 + s4) :: bs)
          | none => none
      | _, _, _, _ => none

/-- `Base64.decode` (Android): ignore `=` padding, then decode groups. -/
def b64Decode (cs : List Nat) : Option (List Nat) :=
  b64DecodeGroups (cs.filter (fun c => !(c == 61)))

/-- Alphabet characters are never the padding character. -/
theorem b64CharOfVal_ne_pad : ∀ v, v < 64 → (b64CharOfVal v == 61) = false := by
  decide

/-- Decoding a character inverts encoding a value. -/
theorem b64ValOfChar_b64CharOfVal : ∀ v, v < 64 → b64ValOfChar (b64CharOfVal v) = some v := by
  decide

/-- Base64 decoding inverts encoding on byte sequences. -/
theorem b64_roundtrip (B : List Nat) : (∀ b ∈ B, b < 256) → b64Decode (b64Encode B) = some B := by
  induction B using b64Encode.induct with
  | case1 => intro _; rfl
  | case2 a =>
    intro hB
    have ha : a < 256 := hB a (by simp)
    have h1 := b64ValOfChar_b64CharOfVal (a / 4) (by omega)
    have h2 := b64ValOfChar_b64CharOfVal (a % 4 * 16) (by omega)
    have hp1 := b64CharOfVal_ne_pad (a / 4) (by omega)
    have hp2 := b64CharOfVal_ne_pad (a % 4 * 16) (by omega)
    simp [b64Encode, b64Decode, List.filter, hp1, hp2, b64DecodeGroups, h1, h2]
    omega
  | case3 a b =>
    intro hB
    have ha : a < 256 := hB a (by simp)
    have hb : b < 256 := hB b (by simp)
    have h1 := b64ValOfChar_b64CharOfVal (a / 4) (by omega)
    have h2 := b64ValOfChar_b64CharOfVal (a % 4 * 16 + b / 16) (by omega)
    have h3 := b64ValOfChar_b64CharOfVal (b % 16 * 4) (by omega)
    have hp1 := b64CharOfVal_ne_pad (a / 4) (by omega)
    have hp2 := b64CharOfVal_ne_pad (a % 4 * 16 + b / 16) (by omega)
    have hp3 := b64CharOfVal_ne_pad (b % 16 * 4) (by omega)
    simp [b64Encode, b64Decode, List.filter, hp1, hp2, hp3, b64DecodeGroups, h1, h2, h3]
    constructor <;> omega
  | case4 a b c rest ih =>
    intro hB
    have ha : a < 256 := hB a (by simp)
    have hb : b < 256 := hB b (by simp)
    have hc : c < 256 := hB c (by simp)
    have hrest : ∀ x ∈ rest, x < 256 := fun x hx => hB x (by simp [hx])
    have hdec := ih hrest
    have h1 := b64ValOfChar_b64CharOfVal (a / 4) (by omega)
    have h2 := b64ValOfChar_b64CharOfVal (a % 4 * 16 + b / 16) (by omega)
    have h3 := b64ValOfChar_b64CharOfVal (b % 16 * 4 + c / 64) (by omega)
    have h4 := b64ValOfChar_b64CharOfVal (c % 64) (by omega)
    have hp1 := b64CharOfVal_ne_pad (a / 4) (by omega)
    have hp2 := b64CharOfVal_ne_pad (a % 4 * 16 + b / 16) (by omega)
    have hp3 := b64CharOfVal_ne_pad (b % 16 * 4 + c / 64) (by omega)
    have hp4 := b64CharOfVal_ne_pad (c % 64) (by omega)
    rw [b64Decode] at hdec
    simp [b64Encode, b64Decode, List.filter, hp1, hp2, hp3, hp4, b64DecodeGroups,
      h1, h2, h3, h4, hdec]
    refine ⟨by omega, by omega, by omega⟩

/-- JS `Buffer.prototype.toString('utf8')` (the zero-argument
`content.toString()` used by the legacy `putFileContents`): decode the
bytes as UTF-8, invalid sequences becoming U+FFFD (65533).  Exact on
well-formed input and on ASCII; on malformed input the number of bytes
consumed per replacement character is simplified (no theorem below
depends on malformed non-ASCII input). -/
def utf8DecodeAux : Nat → List Nat → List Nat
  | 0, _ => []
  | _ + 1, [] => []
  | fuel + 1, b :: rest =>
    if b < 128 then b :: utf8DecodeAux fuel rest
    else if 194 ≤ b && b ≤ 223 then
      match rest with
      | c1 :: r1 =>
          if 128 ≤ c1 && c1 ≤ 191 then
            ((b - 192) * 64 + (c1 - 128)) :: utf8DecodeAux fuel r1
          else 65533 :: utf8DecodeAux fuel rest
      | [] => [65533]
    else if 224 ≤ b && b ≤ 239 then
      match rest with
      | c1 :: c2 :: r2 =>
          if (128 ≤ c1 && c1 ≤ 191) && (128 ≤ c2 && c2 ≤ 191) then
            ((b - 224) * 4096 + (c1 - 128) * 64 + (c2 - 128)) :: utf8DecodeAux fuel r2
          else 65533 :: utf8DecodeAux fuel rest
      | _ => 65533 :: utf8DecodeAux fuel rest
    else if 240 ≤ b && b ≤ 244 then
      match rest with
      | c1 :: c2 :: c3 :: r3 =>
          if ((128 ≤ c1 && c1 ≤ 191) && (128 ≤ c2 && c2 ≤ 191)) && (128 ≤ c3 && c3 ≤ 191) then
            ((b - 240) * 262144 + (c1 - 128) * 4096 + (c2 - 128) * 64 + (c3 - 128))
              :: utf8DecodeAux fuel r3
          else 65533 :: utf8DecodeAux fuel rest
      | _ => 65533 :: utf8DecodeAux fuel rest
    else 65533 :: utf8DecodeAux fuel rest

/-- UTF-8 decoding of a byte sequence into character codes. -/
def utf8Decode (bs : List Nat) : List Nat :=
  utf8DecodeAux bs.length bs

/-- The current `NativeWebDAVClient.putFileContents` (second copy in
api/index.js): a Buffer is sent as `content.toString('base64')` with
`bodyIsBase64: true`, and the native layer `Base64.decode`s it into the
raw PUT body (`none` = "Invalid Base64 body" rejection). -/
def putFileContentsBody (content : List Nat) : Option (List Nat) :=
  b64Decode (b64Encode content)

/-- The legacy `NativeWebDAVClient.putFileContents` (first copy in
api/index.js, line 219): the Buffer is sent as `content.toString()`
(UTF-8 decode) with `bodyIsBase64: true`, so the native layer
`Base64.decode`s the UTF-8 decoding of the bytes. -/
def legacyPutFileContentsBody (content : List Nat) : Option (List Nat) :=
  b64Decode (utf8Decode content)

/-- Modelled from the spec: the external WebDAV server stores the PUT body
verbatim under the request path and returns it as the GET response body
(the remote server is not part of this repository). -/
def remotePut (store : String → Option (List Nat)) (p : String) (body : List Nat) :
    String → Option (List Nat) :=
  fun q => if q = p then some body else store q

/-- `getFileContents(path, { format: 'binary' })`: the native layer
returns `Base64.encodeToString` of the upstream response bytes. -/
def getFileContentsBase64 (store : String → Option (List Nat)) (p : String) :
    Option (List Nat) :=
  (store p).map b64Encode

/-- The bytes the caller recovers from a binary read (`base64ToBlob` /
`atob` on the returned base64 string). -/
def readBackBytes (store : String → Option (List Nat)) (p : String) : Option (List Nat) :=
  (getFileContentsBase64 store p).bind b64Decode

/-- Helper: a PUT of the whole body in one read stores exactly the body. -/
theorem handlePut_single (B : List Nat) (h : B.length ≤ 65536) :
    handlePut (some B.length) [ReadEv.chunk B] = (some B, 201) := by
  unfold handlePut
  unfold putGo
  split
  · rename_i hc
    have h0 : B.length = 0 := by simpa using hc
    have hB : B = [] := List.eq_nil_of_length_eq_zero h0
    subst hB
    rfl
  · rename_i hc
    simp only []
    have hmin : min 65536 B.length = B.length := by omega
    rw [hmin, List.take_length]
    unfold putGo
    rw [if_pos (by simp)]
    simp

/-- C5 counterexample: the legacy `putFileContents` (first client copy,
cited at api/index.js lines 219-233) corrupts the byte sequence
`B = [97, 98, 99]` ("abc"): `content.toString()` UTF-8-decodes the Buffer
to the string "abc", which the native layer then base64-decodes to
`[105, 183]`, so the stored object — and hence any read-back — differs
from `B`. -/
theorem legacy_put_corrupts_counterexample :
    legacyPutFileContentsBody [97, 98, 99] = some [105, 183]
    ∧ readBackBytes (remotePut (fun _ => none) "/f" [105, 183]) "/f" = some [105, 183]
    ∧ some [105, 183] ≠ some ([97, 98, 99] : List Nat) := by
  refine ⟨by decide, by decide, by decide⟩

/-- C5 amended: with the current native client, uploading a byte sequence
`B` and reading it back is byte-identical for both backends: the base64
body pipeline delivers exactly `B` to the remote store and a binary read
returns exactly `B`; on the local backend, the embedded server's PUT
stores exactly `B` and its GET returns exactly `B`.  The legacy client
copy (Buffer `toString()` before base64 decoding) corrupts binary
uploads. -/
theorem write_read_roundtrip (B : List Nat) (p : String)
    (store : String → Option (List Nat))
    (hB : ∀ b ∈ B, b < 256) (hlen : B.length ≤ 65536) :
    putFileContentsBody B = some B
    ∧ readBackBytes (remotePut store p B) p = some B
    ∧ (handlePut (some B.length) [ReadEv.chunk B]).1 = some B
    ∧ (handleGet (some B) none).body = B := by
  have hrt := b64_roundtrip B hB
  refine ⟨hrt, ?_, ?_, by simp [handleGet]⟩
  · rw [readBackBytes, getFileContentsBase64, remotePut]
    simp [hrt]
  · rw [handlePut_single B hlen]

/-- Witness for `write_read_roundtrip` at a concrete byte sequence. -/
theorem write_read_roundtrip_witness :
    putFileContentsBody [0, 1, 255] = some [0, 1, 255] :=
  (write_read_roundtrip [0, 1, 255] "/f" (fun _ => none) (by decide) (by decide)).1

/-! ## Cross-drive transfer strategies

`POST /api/transfer` (src/server/index.js) opens a read stream on the
source backend and feeds it to the destination write (for a WebDAV
destination, directly into `putFileContents`); `NativeAPI.crossDriveTransfer`
(second copy in api/index.js) selects a strategy per backend pair, the
WebDAV→WebDAV one staging through a temp file under `.WebDavClientTemp`.
The per-item control flow is embedded as the sequence of I/O operations
performed. -/

inductive DriveKind where
  | localFs
  | webdav
  deriving DecidableEq, Repr

inductive TOp where
  | openLocalRead
  | openRemoteRead
  | ensureLocalDir
  | pipeToLocalFile
  | putRemoteStream
  | deleteLocalSource
  | deleteRemoteSource
  | nativeCopy
  | streamUploadFromLocal
  | streamDownloadToLocal
  | ensureTempDir
  | streamDownloadToTemp
  | streamUploadFromTemp
  | deleteTempFile
  deriving DecidableEq, Repr

/-- One item of `POST /api/transfer` (src/server/index.js): get the read
stream, write it to the destination, delete the source if `move`. -/
def serverTransferItemOps (src dst : DriveKind) (move : Bool) : List TOp :=
  (match src with
   | DriveKind.localFs => [TOp.openLocalRead]
   | DriveKind.webdav => [TOp.openRemoteRead])
  ++ (match dst with
      | DriveKind.localFs => [TOp.ensureLocalDir, TOp.pipeToLocalFile]
      | DriveKind.webdav => [TOp.putRemoteStream])
  ++ (if move then
        match src with
        | DriveKind.localFs => [TOp.deleteLocalSource]
        | DriveKind.webdav => [TOp.deleteRemoteSource]
      else [])

/-- One file item of `NativeAPI.crossDriveTransfer` (second copy in
api/index.js): strategy by backend pair; WebDAV→WebDAV stages through a
local temp file, then deletes it, then deletes the source if `move`. -/
def nativeTransferFileOps (src dst : DriveKind) (move : Bool) : List TOp :=
  match src, dst with
  | DriveKind.localFs, DriveKind.localFs => [TOp.nativeCopy]
  | DriveKind.localFs, DriveKind.webdav =>
      [TOp.streamUploadFromLocal] ++ (if move then [TOp.deleteLocalSource] else [])
  | DriveKind.webdav, DriveKind.localFs =>
      [TOp.streamDownloadToLocal] ++ (if move then [TOp.deleteRemoteSource] else [])
  | DriveKind.webdav, DriveKind.webdav =>
      [TOp.ensureTempDir, TOp.streamDownloadToTemp, TOp.streamUploadFromTemp,
       TOp.deleteTempFile]
      ++ (if move then [TOp.deleteRemoteSource] else [])

/-- A transfer pipes the two remote connections directly: it opens a
remote read stream and feeds a remote PUT in the same item. -/
def directRemotePipe (ops : List TOp) : Bool :=
  ops.contains TOp.openRemoteRead && ops.contains TOp.putRemoteStream

/-- A transfer stages through a local temp file: download to it, upload
from it, and delete it. -/
def usesStagingFile (ops : List TOp) : Bool :=
  ops.contains TOp.streamDownloadToTemp && ops.contains TOp.streamUploadFromTemp
    && ops.contains TOp.deleteTempFile

/-- C2 counterexample: the server transfer endpoint performs a
WebDAV→WebDAV item by piping the remote read stream directly into the
destination PUT — no staging file is involved. -/
theorem server_transfer_pipes_directly_counterexample :
    serverTransferItemOps DriveKind.webdav DriveKind.webdav true
      = [TOp.openRemoteRead, TOp.putRemoteStream, TOp.deleteRemoteSource]
    ∧ directRemotePipe (serverTransferItemOps DriveKind.webdav DriveKind.webdav true) = true
    ∧ usesStagingFile (serverTransferItemOps DriveKind.webdav DriveKind.webdav true) = false := by
  refine ⟨by decide, by decide, by decide⟩

/-- C2 amended: the native client's WebDAV→WebDAV transfer never pipes
directly: it downloads to a staging file in the temp folder, uploads the
staging file, deletes it, and deletes the remote source afterwards
exactly when the mode is Move; the server's `/api/transfer` endpoint, by
contrast, pipes the remote read stream directly into the destination
PUT. -/
theorem native_webdav_transfer_staged (move : Bool) :
    nativeTransferFileOps DriveKind.webdav DriveKind.webdav move
      = [TOp.ensureTempDir, TOp.streamDownloadToTemp, TOp.streamUploadFromTemp,
         TOp.deleteTempFile] ++ (if move then [TOp.deleteRemoteSource] else [])
    ∧ usesStagingFile (nativeTransferFileOps DriveKind.webdav DriveKind.webdav move) = true
    ∧ directRemotePipe (nativeTransferFileOps DriveKind.webdav DriveKind.webdav move) = false
    ∧ (move = true →
        (nativeTransferFileOps DriveKind.webdav DriveKind.webdav move).getLast?
          = some TOp.deleteRemoteSource) := by
  cases move <;> exact ⟨by decide, by decide, by decide, by intro h; first | decide | exact absurd h (by decide)⟩

/-- Witness for `native_webdav_transfer_staged` in Move mode. -/
theorem native_webdav_transfer_staged_witness :
    (nativeTransferFileOps DriveKind.webdav DriveKind.webdav true).getLast?
      = some TOp.deleteRemoteSource :=
  (native_webdav_transfer_staged true).2.2.2 rfl

/-! ## Cooperative cancellation (WebDavPlugin.java + crossDriveTransfer)

`cancelTask` sets `cancellationMap[taskId] = { cancelled: true }` and then
removes the task id from the native `activeCalls` map.  The native
`download` / `upload` loops check `activeCalls.containsKey(id)` at the top
of every chunk iteration, before writing, and throw when the id is gone;
the `download` catch block deletes the partial destination file.  The JS
catch in `crossDriveTransfer` (api/index.js 2138-2161) is written to
swallow the failure when the token is cancelled and, for a remote
destination, first DELETE the partially written remote object — but the
`targetPath` it references there is a `const` block-scoped inside the
try's branch blocks (lines 1867, 1903, 1960, 2040), not visible in the
catch, so evaluating the log template at line 2145 (which sits before
the inner try/catch) throws a ReferenceError that escapes the catch: no
DELETE is issued and the item surfaces as an error.  Only the
local-destination path (which never reads `targetPath`) reports the item
as cancelled. -/

/-- Whether the cancellation is observed at chunk iteration `i`: the token
was set (id removed from `activeCalls`) before iteration `k`. -/
def cancelledAt (tok : Option Nat) (i : Nat) : Bool :=
  match tok with
  | some k => decide (k ≤ i)
  | none => false

structure DlOutcome where
  /-- The destination file left on disk (`none` = deleted/absent). -/
  file : Option (List Nat)
  /-- Bytes that had been written when the loop ended. -/
  written : List Nat
  /-- Whether the call rejected (an exception was thrown). -/
  errored : Bool
  deriving DecidableEq, Repr

/-- The chunk loop of the native `download` method: check the token
before each write, throw on cancellation (the catch deletes the partial
file), otherwise append the chunk to the destination file. -/
def dlGo (tok : Option Nat) (i : Nat) (acc : List Nat) : List (List Nat) → DlOutcome
  | [] => ⟨some acc, acc, false⟩
  | c :: rest =>
      if cancelledAt tok i then ⟨none, acc, true⟩
      else dlGo tok (i + 1) (acc ++ c) rest

/-- The native `download` call on a stream of chunks. -/
def nativeDownload (tok : Option Nat) (chunks : List (List Nat)) : DlOutcome :=
  dlGo tok 0 [] chunks

/-- The chunk loop of the native `upload` request body: check the token
before each `sink.write`, throw on cancellation.  Returns the bytes sent
to the remote destination and whether the call rejected. -/
def ulGo (tok : Option Nat) (i : Nat) (acc : List Nat) : List (List Nat) → List Nat × Bool
  | [] => (acc, false)
  | c :: rest =>
      if cancelledAt tok i then (acc, true)
      else ulGo tok (i + 1) (acc ++ c) rest

/-- The native `upload` call on the file's chunks. -/
def nativeUploadSent (tok : Option Nat) (chunks : List (List Nat)) : List Nat × Bool :=
  ulGo tok 0 [] chunks

inductive ItemOutcome where
  | done
  | cancelled
  | error
  deriving DecidableEq, Repr

/-- The catch block of `crossDriveTransfer` (api/index.js 2138-2161).
With the token cancelled and a local destination it logs and swallows the
failure: the item is reported as cancelled.  With the token cancelled and
a remote destination it reads `targetPath`, which is not in scope in the
catch (every declaration is a block-scoped `const` inside the try's
branches), so a ReferenceError is thrown before the inner try/catch and
escapes: no remote DELETE is issued and the item surfaces as an error.
Without cancellation the failure is rethrown as an error.  Returns
(outcome, remote DELETE issued). -/
def crossDriveItemReport (nativeErrored tokenCancelled destRemote : Bool) :
    ItemOutcome × Bool :=
  if nativeErrored then
    if tokenCancelled then
      if destRemote then (ItemOutcome.error, false)
      else (ItemOutcome.cancelled, false)
    else (ItemOutcome.error, false)
  else (ItemOutcome.done, false)

/-- Helper: the download loop cancelled at absolute index `k` writes
exactly the first `k - i` chunks from position `i` on, deletes the file
and rejects. -/
theorem dlGo_cancel (chunks : List (List Nat)) : ∀ k i acc, i ≤ k → k - i < chunks.length →
    dlGo (some k) i acc chunks = ⟨none, acc ++ (chunks.take (k - i)).flatten, true⟩ := by
  induction chunks with
  | nil => intro k i acc _ h2; simp at h2
  | cons c rest ih =>
    intro k i acc h1 h2
    rw [dlGo]
    by_cases hik : k ≤ i
    · have hk : k = i := le_antisymm hik h1
      simp [cancelledAt, hk]
    · have hlt : i < k := lt_of_not_le hik
      rw [if_neg (by simp [cancelledAt]; omega)]
      rw [ih k (i + 1) (acc ++ c) (by omega) (by simp at h2 ⊢; omega)]
      have htake : k - i = (k - (i + 1)) + 1 := by omega
      rw [htake, List.take_succ_cons, List.flatten_cons, List.append_assoc]

/-- Helper: the upload loop cancelled at absolute index `k` sends exactly
the first `k - i` chunks from position `i` on, then rejects. -/
theorem ulGo_cancel (chunks : List (List Nat)) : ∀ k i acc, i ≤ k → k - i < chunks.length →
    ulGo (some k) i acc chunks = (acc ++ (chunks.take (k - i)).flatten, true) := by
  induction chunks with
  | nil => intro k i acc _ h2; simp at h2
  | cons c rest ih =>
    intro k i acc h1 h2
    rw [ulGo]
    by_cases hik : k ≤ i
    · have hk : k = i := le_antisymm hik h1
      simp [cancelledAt, hk]
    · have hlt : i < k := lt_of_not_le hik
      rw [if_neg (by simp [cancelledAt]; omega)]
      rw [ih k (i + 1) (acc ++ c) (by omega) (by simp at h2 ⊢; omega)]
      have htake : k - i = (k - (i + 1)) + 1 := by omega
      rw [htake, List.take_succ_cons, List.flatten_cons, List.append_assoc]

/-- C3 (code bug): a task cancelled before chunk `k` of the stream writes
no byte beyond the first `k` chunks to the destination and the native
download deletes the partial local destination file, and with a local
destination the item is reported as cancelled; but with a remote
destination the catch crashes on the out-of-scope `targetPath`, so no
DELETE of the partially written remote object is issued and the item
surfaces as an error — against the claim's (and the spec's) intent,
which the catch visibly tries to implement. -/
theorem cancelled_task_outcome (chunks : List (List Nat)) (k : Nat)
    (hk : k < chunks.length) :
    nativeDownload (some k) chunks
      = ⟨none, (chunks.take k).flatten, true⟩
    ∧ nativeUploadSent (some k) chunks = ((chunks.take k).flatten, true)
    ∧ crossDriveItemReport true true false = (ItemOutcome.cancelled, false)
    ∧ crossDriveItemReport true true true = (ItemOutcome.error, false) := by
  refine ⟨?_, ?_, rfl, rfl⟩
  · rw [nativeDownload, dlGo_cancel chunks k 0 [] (by omega) (by omega)]
    simp
  · rw [nativeUploadSent, ulGo_cancel chunks k 0 [] (by omega) (by omega)]
    simp

/-- Witness for `cancelled_task_outcome` at a concrete stream. -/
theorem cancelled_task_outcome_witness :
    nativeDownload (some 1) [[1, 2], [3, 4]] = ⟨none, [1, 2], true⟩ :=
  (cancelled_task_outcome [[1, 2], [3, 4]] 1 (by decide)).1

/-! ## mkdir on both backends

Local: `POST /api/mkdir` uses `fs.ensureDir` and the native
`createFolder` uses `Filesystem.mkdir { recursive: true }` (falling back
to the plugin's `createDirectory`, which resolves when the directory
already exists) — create if missing, succeed if present.  WebDAV: both
clients issue MKCOL (`createDirectory`) and surface any status ≥ 400 as
an error; a conforming WebDAV server answers MKCOL on an existing
collection with 405 (modelled from the spec's `mkdir`→MKCOL mapping and
RFC 4918 — the remote server is not part of this repository). -/

/-- `fs.ensureDir` / native `createDirectory` on the local directory set:
create if missing, plain success if present.  Returns (directories,
errored). -/
def ensureDir (fs : List String) (p : String) : List String × Bool :=
  if p ∈ fs then (fs, false) else (p :: fs, false)

/-- Modelled from the spec: MKCOL on the remote collection set; 405 on an
existing collection, 201 otherwise. -/
def mkcol (store : List String) (p : String) : List String × Nat :=
  if p ∈ store then (store, 405) else (p :: store, 201)

/-- `createDirectory` in the native client: `_request('MKCOL', path)`
throws whenever the response status is ≥ 400 (and the server `/api/mkdir`
WebDAV branch then answers 500).  Returns (collections, error status). -/
def clientMkdir (store : List String) (p : String) : List String × Option Nat :=
  let r := mkcol store p
  (r.1, if r.2 ≥ 400 then some r.2 else none)

/-- C9 counterexample: on a WebDAV backend, the second `mkdir` of the same
path errors: the first MKCOL creates the collection, the second is
answered 405 and the client raises it. -/
theorem webdav_mkdir_twice_errors_counterexample :
    (clientMkdir [] "/a").2 = none
    ∧ (clientMkdir (clientMkdir [] "/a").1 "/a").2 = some 405 := by
  refine ⟨by decide, by decide⟩

/-- C9 amended: on the local backend, calling `mkdir` twice on the same
path errors on neither call and leaves the directory present exactly
once; on a WebDAV backend the second MKCOL is answered 405 by a
conforming server and the client surfaces it as an error. -/
theorem mkdir_twice_local_idempotent (fs : List String) (p : String)
    (h : fs.count p ≤ 1) :
    (ensureDir fs p).2 = false
    ∧ (ensureDir (ensureDir fs p).1 p).2 = false
    ∧ (ensureDir (ensureDir fs p).1 p).1.count p = 1 := by
  by_cases hc : p ∈ fs
  · have hpos : 0 < fs.count p := List.count_pos_iff.mpr hc
    simp only [ensureDir, if_pos hc]
    exact ⟨trivial, trivial, by omega⟩
  · have hzero : fs.count p = 0 := List.count_eq_zero.mpr hc
    simp only [ensureDir, if_neg hc]
    have hmem : p ∈ p :: fs := List.mem_cons_self p fs
    simp only [if_pos hmem]
    refine ⟨trivial, trivial, ?_⟩
    rw [List.count_cons_self, hzero]

/-- Witness for `mkdir_twice_local_idempotent` at a concrete filesystem. -/
theorem mkdir_twice_local_idempotent_witness :
    (ensureDir (ensureDir ["/other"] "/docs").1 "/docs").1.count "/docs" = 1 :=
  (mkdir_twice_local_idempotent ["/other"] "/docs" (by decide)).2.2
